import Mathlib

/-!
Shallow embedding of `src/api.ts` of the tfetch repository: the `requestJson`
helper, its parameter merging, header and body construction, the
`Promise.race` against a timeout, and the two predicates `isNetworkError` and
`isValidStatusCode`.  Promises are modelled by `Except`: a settled promise is
either `.ok` (resolved) or `.error` (rejected), and the external world (the
transport's outcome and which racer settles first) is an explicit input.
-/

namespace Tfetch

/-- A JSON value, the model of the JavaScript values that flow through
`requestJson` as bodies, parsed responses and rejection values. -/
inductive Json where
  | null : Json
  | bool (b : Bool) : Json
  | num (n : Int) : Json
  | str (s : String) : Json
  | arr (elems : List Json) : Json
  | obj (fields : List (String × Json)) : Json

/-- JavaScript truthiness of a `Json` value: `false`, `0`, the empty string and
`null` are falsy; every object and array is truthy. -/
def Json.truthy : Json → Bool
  | .null => false
  | .bool b => b
  | .num n => n != 0
  | .str s => s != ""
  | .arr _ => true
  | .obj _ => true

mutual

/-- `JSON.stringify`, the serializer applied to the request body
(`params.body = JSON.stringify(body)`, src/api.ts line 92). -/
def Json.stringify : Json → String
  | .null => "null"
  | .bool true => "true"
  | .bool false => "false"
  | .num n => toString n
  | .str s => "\"" ++ s ++ "\""
  | .arr elems => "[" ++ String.intercalate "," (stringifyList elems) ++ "]"
  | .obj fields => "\x7b" ++ String.intercalate "," (stringifyFields fields) ++ "\x7d"

/-- Serialization of the elements of a JSON array. -/
def stringifyList : List Json → List String
  | [] => []
  | j :: rest => Json.stringify j :: stringifyList rest

/-- Serialization of the key/value pairs of a JSON object. -/
def stringifyFields : List (String × Json) → List String
  | [] => []
  | (k, v) :: rest => ("\"" ++ k ++ "\":" ++ Json.stringify v) :: stringifyFields rest

end

/-- `httpType` (src/api.ts line 8): the five HTTP methods. -/
inductive httpType where
  | GET | POST | PUT | PATCH | DELETE
deriving DecidableEq

/-- `networkError` (src/api.ts line 7): the two recognized network-error
literals. -/
inductive networkError where
  | timeout | other
deriving DecidableEq

/-- `IExtraHeader` (src/api.ts lines 10-13). -/
structure IExtraHeader where
  key : String
  value : String

/-- The caller's request parameters, `IRequestParams` =
`IRequestBasicParams & IValidStatusCode` (src/api.ts lines 15-30), seen as a
JavaScript object.  Each optional key is `Option (Option α)`: `none` means the
key is absent from the object, `some none` means it is present with value
`undefined`, `some (some a)` means it is present with a defined value.  The
distinction matters because the object spread on line 58 copies every present
key, a present-`undefined` one included.

`timeoutMs` is not declared by the source's `IRequestParams`; it is modelled
here only so that claims about such a key can be stated.  No code reads it:
`requestJson` destructures the key `timeout`, which only `defaultRequestParams`
supplies. -/
structure IRequestParams where
  body : Option (Option Json) := none
  extraHeaders : Option (Option (List IExtraHeader)) := none
  method : Option (Option httpType) := none
  jsonRequest : Option (Option Bool) := none
  jsonResponse : Option (Option Bool) := none
  url : String
  validStatusCodes : Option (Option (List Nat)) := none
  validStatusCodeStart : Option (Option Nat) := none
  validStatusCodeEnd : Option (Option Nat) := none
  timeoutMs : Option (Option Nat) := none

/-- `IValidStatusCode` (src/api.ts lines 24-28), as consumed by
`isValidStatusCode`: each field is a defined value or `undefined`. -/
structure IValidStatusCode where
  validStatusCodes : Option (List Nat) := none
  validStatusCodeStart : Option Nat := none
  validStatusCodeEnd : Option Nat := none

/-- `defaultRequestParams` (src/api.ts lines 32-39).  Note the last key is
named `timeout`, a key the parameter interface does not declare. -/
structure DefaultRequestParams where
  method : httpType
  jsonRequest : Bool
  jsonResponse : Bool
  validStatusCodeStart : Nat
  validStatusCodeEnd : Nat
  timeout : Nat

/-- The concrete default object of src/api.ts lines 32-39. -/
def defaultRequestParams : DefaultRequestParams :=
  { method := .GET
    jsonRequest := true
    jsonResponse := true
    validStatusCodeStart := 200
    validStatusCodeEnd := 299
    timeout := 10000 }

/-- One key of the object spread `{ ...defaultRequestParams, ...requestParams }`
(src/api.ts line 58) for a key the default object supplies: if the caller's
object has the key (even with value `undefined`) its value wins, otherwise the
default is used. -/
def spreadKey {α : Type} (dflt : α) : Option (Option α) → Option α
  | none => some dflt
  | some v => v

/-- One key of the same spread for a key the default object does not supply:
absent and present-`undefined` both leave the key `undefined`. -/
def spreadKeyNoDefault {α : Type} : Option (Option α) → Option α
  | none => none
  | some v => v

/-- The destructured fields of `processedParams` (src/api.ts lines 58-72).
Every field except `url` and `timeout` may be `undefined`; `timeout` is always
the default `10000` because the caller's typed parameter object has no
`timeout` key for the spread to copy. -/
structure ProcessedParams where
  url : String
  method : Option httpType
  body : Option Json
  extraHeaders : Option (List IExtraHeader)
  jsonRequest : Option Bool
  jsonResponse : Option Bool
  validStatusCodes : Option (List Nat)
  validStatusCodeStart : Option Nat
  validStatusCodeEnd : Option Nat
  timeout : Nat

/-- `const processedParams = { ...defaultRequestParams, ...requestParams }`
(src/api.ts line 58), followed by the destructuring of lines 59-72. -/
def processParams (p : IRequestParams) : ProcessedParams :=
  { url := p.url
    method := spreadKey defaultRequestParams.method p.method
    body := spreadKeyNoDefault p.body
    extraHeaders := spreadKeyNoDefault p.extraHeaders
    jsonRequest := spreadKey defaultRequestParams.jsonRequest p.jsonRequest
    jsonResponse := spreadKey defaultRequestParams.jsonResponse p.jsonResponse
    validStatusCodes := spreadKeyNoDefault p.validStatusCodes
    validStatusCodeStart := spreadKey defaultRequestParams.validStatusCodeStart p.validStatusCodeStart
    validStatusCodeEnd := spreadKey defaultRequestParams.validStatusCodeEnd p.validStatusCodeEnd
    timeout := defaultRequestParams.timeout }

/-- JavaScript truthiness of a possibly-`undefined` boolean
(`if (jsonRequest)`, `if (jsonResponse)`). -/
def optBoolTruthy : Option Bool → Bool
  | some b => b
  | none => false

/-- JavaScript truthiness of a possibly-`undefined` JSON value
(`if (body && ...)`). -/
def optJsonTruthy : Option Json → Bool
  | some j => j.truthy
  | none => false

/-- The `Headers` container built on src/api.ts lines 74-85: JSON headers
conditional on `jsonRequest`/`jsonResponse`, then every extra header appended
in order. -/
def buildHeaders (pp : ProcessedParams) : List (String × String) :=
  (if optBoolTruthy pp.jsonRequest then [("Content-Type", "application/json")] else []) ++
  (if optBoolTruthy pp.jsonResponse then [("Accept", "application/json")] else []) ++
  (match pp.extraHeaders with
   | some hs => hs.map fun h => (h.key, h.value)
   | none => [])

/-- The `RequestInit` object passed to `fetch` (src/api.ts lines 86-93). -/
structure RequestInit where
  method : Option httpType
  headers : List (String × String)
  body : Option String := none

/-- Construction of the `fetch` parameters (src/api.ts lines 86-93): the body
is serialized and attached only when `body` is truthy and the method is
`POST`, `PATCH` or `DELETE`.  (Under that guard the body is defined, so the
`getD .null` fallback is never the value serialized.) -/
def buildRequestInit (pp : ProcessedParams) : RequestInit :=
  let params : RequestInit := { method := pp.method, headers := buildHeaders pp }
  if optJsonTruthy pp.body = true ∧
      (pp.method = some .POST ∨ pp.method = some .PATCH ∨ pp.method = some .DELETE) then
    { params with body := some (Json.stringify (pp.body.getD .null)) }
  else
    params

/-- The outgoing request `fetch(url, params)` is called with, for a given
caller parameter object. -/
def outgoingRequest (p : IRequestParams) : RequestInit :=
  buildRequestInit (processParams p)

/-- A transport `Response`: its status code, and the outcome of
`response.json()` — the parsed body, or the value that parse promise rejects
with. -/
structure Response where
  status : Nat
  jsonBody : Except Json Json

/-- The value stored into `data`/`errorData`: the parsed JSON body when
`jsonResponse` is truthy, otherwise the raw `Response` object passed through
(src/api.ts lines 110-114), and on the catch path the rejection value
itself. -/
inductive Payload where
  | json (j : Json) : Payload
  | raw (r : Response) : Payload

/-- `IJsonStatus` (src/api.ts lines 1-6), constructed empty on line 73 and
filled field by field along the chain. -/
structure IJsonStatus where
  data : Option Payload := none
  errorData : Option Payload := none
  networkError : Option networkError := none
  statusCode : Option Nat := none

/-- `isNetworkError` (src/api.ts lines 143-145): a rejection value is a
network error exactly when it is the string literal `timeout` or `other`. -/
def isNetworkError : Json → Bool
  | .str s => s == "timeout" || s == "other"
  | _ => false

/-- The `networkError` enum value a rejection that passes `isNetworkError`
stands for. -/
def asNetworkError : Json → Option networkError
  | .str s => if s == "timeout" then some .timeout else if s == "other" then some .other else none
  | _ => none

/-- `isValidStatusCode` (src/api.ts lines 147-164).  An explicit
`validStatusCodes` array (truthy even when empty) decides by membership;
otherwise both range bounds must be truthy (defined and non-zero) and the code
must lie between them; otherwise the code is invalid. -/
def isValidStatusCode (statusCode : Nat) (validation : IValidStatusCode) : Bool :=
  match validation.validStatusCodes with
  | some validStatusCodes =>
      (validStatusCodes.find? fun sc => sc == statusCode).isSome
  | none =>
      match validation.validStatusCodeStart, validation.validStatusCodeEnd with
      | some vStart, some vEnd =>
          if vStart ≠ 0 ∧ vEnd ≠ 0 then decide (vStart ≤ statusCode ∧ statusCode ≤ vEnd)
          else false
      | _, _ => false

/-- The environment's resolution of
`Promise.race([fetch(url, params), timer])` (src/api.ts lines 95-104): either
the `fetch` promise settles first — resolving to a `Response` or rejecting
with some value — or the timeout timer rejects first. -/
inductive RaceResult where
  | fetched (outcome : Except Json Response) : RaceResult
  | timedOut : RaceResult

/-- The settled value of the race promise: the fetch outcome when fetch wins,
and a rejection with the string `timeout` when the timer wins (src/api.ts
lines 98-103). -/
def raceSettled : RaceResult → Except Json Response
  | .fetched outcome => outcome
  | .timedOut => .error (.str "timeout")

/-- The first `.then` handler (src/api.ts lines 105-114): record the status
code, then parse the body as JSON when `jsonResponse` is truthy (the parse may
reject) or pass the raw response through.  Returns the mutated
`statusResponse` alongside the handler's (possibly rejected) result. -/
def thenResponse (jsonResponse : Option Bool) (response : Response) (st : IJsonStatus) :
    IJsonStatus × Except Json (Json ⊕ Response) :=
  let st1 := { st with statusCode := some response.status }
  if optBoolTruthy jsonResponse then
    (st1, response.jsonBody.map Sum.inl)
  else
    (st1, .ok (.inr response))

/-- The value flowing into the second `.then` handler, as a `Payload`. -/
def toPayload : Json ⊕ Response → Payload
  | .inl j => .json j
  | .inr r => .raw r

/-- The second `.then` handler (src/api.ts lines 115-131): validate the
recorded status code and store the payload into `data` or `errorData`.  The
source reads `statusResponse.statusCode!`; the handler only runs after the
first one recorded the status, so the `getD 0` fallback is never taken in the
chain. -/
def thenClassify (validation : IValidStatusCode) (json : Json ⊕ Response) (st : IJsonStatus) :
    IJsonStatus :=
  if isValidStatusCode (st.statusCode.getD 0) validation then
    { st with data := some (toPayload json) }
  else
    { st with errorData := some (toPayload json) }

/-- The `.catch` handler (src/api.ts lines 132-140): a rejection value that is
a network-error literal goes to `networkError`, any other rejection value goes
to `errorData`. -/
def catchHandler (err : Json) (st : IJsonStatus) : IJsonStatus :=
  if isNetworkError err then
    { st with networkError := asNetworkError err }
  else
    { st with errorData := some (.json err) }

/-- `requestJson` (src/api.ts lines 55-141) as the settlement of its returned
promise: `.ok` when the promise resolves, `.error` when it rejects.  The
parameters are merged with the defaults, the race outcome is taken from the
environment, and the two `.then` handlers and the final `.catch` are applied
in order, rejections skipping the `.then` handlers. -/
def requestJsonE (requestParams : IRequestParams) (race : RaceResult) :
    Except Json IJsonStatus :=
  let pp := processParams requestParams
  let validation : IValidStatusCode :=
    { validStatusCodes := pp.validStatusCodes
      validStatusCodeStart := pp.validStatusCodeStart
      validStatusCodeEnd := pp.validStatusCodeEnd }
  let st0 : IJsonStatus := {}
  match raceSettled race with
  | .error err => .ok (catchHandler err st0)
  | .ok response =>
      match thenResponse pp.jsonResponse response st0 with
      | (st1, .error err) => .ok (catchHandler err st1)
      | (st1, .ok json) => .ok (thenClassify validation json st1)

/-- The resolved `IJsonStatus` of a `requestJson` call (the chain never
rejects, so the fallback empty record is never the value returned). -/
def requestJson (requestParams : IRequestParams) (race : RaceResult) : IJsonStatus :=
  (requestJsonE requestParams race).toOption.getD {}

/-- The duration handed to `setTimeout` in the race (src/api.ts line 103):
the `timeout` field of the processed params. -/
def timerDuration (requestParams : IRequestParams) : Nat :=
  (processParams requestParams).timeout

/-- How many of the three outcome fields of a result are populated. -/
def populatedCount (st : IJsonStatus) : Nat :=
  (if st.data.isSome then 1 else 0) +
  (if st.errorData.isSome then 1 else 0) +
  (if st.networkError.isSome then 1 else 0)

/-- A concrete spec used in examples: a POST whose body is the falsy value
`0`. -/
def postZeroBodySpec : IRequestParams :=
  { url := "u", method := some (some .POST), body := some (some (.num 0)) }

/-- A concrete spec used in examples: a PUT carrying the truthy body `1`. -/
def putOneBodySpec : IRequestParams :=
  { url := "u", method := some (some .PUT), body := some (some (.num 1)) }

/-- A rejection value recognized by `isNetworkError` always maps to one of the
two `networkError` literals. -/
theorem asNetworkError_isSome_of (e : Json) (h : isNetworkError e = true) :
    (asNetworkError e).isSome = true := by
  cases e <;> simp [isNetworkError] at h
  rcases h with h | h <;> subst h <;> decide

/-- The catch handler always records the rejection, in `networkError` or in
`errorData`. -/
theorem catchHandler_sets (err : Json) (st : IJsonStatus) :
    (catchHandler err st).networkError.isSome = true ∨
    (catchHandler err st).errorData.isSome = true := by
  unfold catchHandler
  by_cases h : isNetworkError err = true
  · exact Or.inl (by simp [h, asNetworkError_isSome_of err h])
  · exact Or.inr (by simp [h])

/-- The catch handler leaves the recorded status code untouched. -/
theorem catchHandler_statusCode (err : Json) (st : IJsonStatus) :
    (catchHandler err st).statusCode = st.statusCode := by
  unfold catchHandler
  split <;> rfl

/-- The classification handler leaves the recorded status code untouched. -/
theorem thenClassify_statusCode (validation : IValidStatusCode) (json : Json ⊕ Response)
    (st : IJsonStatus) : (thenClassify validation json st).statusCode = st.statusCode := by
  unfold thenClassify
  split <;> rfl

/-- Starting from a result with no outcome field set, the catch handler
populates at most one. -/
theorem populatedCount_catchHandler (err : Json) (st : IJsonStatus)
    (hd : st.data = none) (he : st.errorData = none) (hn : st.networkError = none) :
    populatedCount (catchHandler err st) ≤ 1 := by
  unfold catchHandler
  split <;> simp [populatedCount, hd, he, hn]
  split <;> simp

/-- Starting from a result with no outcome field set, the classification
handler populates exactly one of `data`/`errorData`. -/
theorem populatedCount_thenClassify (validation : IValidStatusCode) (json : Json ⊕ Response)
    (st : IJsonStatus) (hd : st.data = none) (he : st.errorData = none)
    (hn : st.networkError = none) :
    populatedCount (thenClassify validation json st) ≤ 1 := by
  unfold thenClassify
  split <;> simp [populatedCount, hd, he, hn]

/-- Claim C1: for every request spec and every resolution of the race, the
promise returned by `requestJson` resolves — it never rejects and never throws
to the caller — and on every failure path (transport rejection, timeout, JSON
parse rejection) the resolved `IJsonStatus` encodes the failure in its
`networkError` or `errorData` field. -/
theorem requestJson_never_rejects (p : IRequestParams) (race : RaceResult) :
    ∃ st : IJsonStatus, requestJsonE p race = Except.ok st ∧
      (∀ err, raceSettled race = Except.error err →
        st.networkError.isSome = true ∨ st.errorData.isSome = true) ∧
      (∀ response perr, raceSettled race = Except.ok response →
        response.jsonBody = Except.error perr →
        optBoolTruthy (processParams p).jsonResponse = true →
        st.networkError.isSome = true ∨ st.errorData.isSome = true) := by
  cases race with
  | timedOut =>
      refine ⟨catchHandler (.str "timeout") {}, rfl, ?_, ?_⟩
      · intro err herr
        simp only [raceSettled, Except.error.injEq] at herr
        subst herr
        exact catchHandler_sets _ _
      · intro response perr h
        simp [raceSettled] at h
  | fetched outcome =>
      cases outcome with
      | error err =>
          refine ⟨catchHandler err {}, rfl, ?_, ?_⟩
          · intro e he
            simp only [raceSettled, Except.error.injEq] at he
            subst he
            exact catchHandler_sets _ _
          · intro response perr h
            simp [raceSettled] at h
      | ok response =>
          obtain ⟨status, jsonBody⟩ := response
          cases hj : optBoolTruthy (processParams p).jsonResponse with
          | true =>
              cases jsonBody with
              | error perr =>
                  refine ⟨catchHandler perr { statusCode := some status }, ?_, ?_, ?_⟩
                  · simp [requestJsonE, raceSettled, thenResponse, hj, Except.map]
                  · intro e he
                    simp [raceSettled] at he
                  · intro r pe hr hb hjr
                    exact catchHandler_sets _ _
              | ok j =>
                  refine ⟨thenClassify
                      { validStatusCodes := (processParams p).validStatusCodes
                        validStatusCodeStart := (processParams p).validStatusCodeStart
                        validStatusCodeEnd := (processParams p).validStatusCodeEnd }
                      (.inl j) { statusCode := some status }, ?_, ?_, ?_⟩
                  · simp [requestJsonE, raceSettled, thenResponse, hj, Except.map]
                  · intro e he
                    simp [raceSettled] at he
                  · intro r pe hr hb hjr
                    simp only [raceSettled, Except.ok.injEq] at hr
                    subst hr
                    simp at hb
          | false =>
              refine ⟨thenClassify
                  { validStatusCodes := (processParams p).validStatusCodes
                    validStatusCodeStart := (processParams p).validStatusCodeStart
                    validStatusCodeEnd := (processParams p).validStatusCodeEnd }
                  (.inr ⟨status, jsonBody⟩) { statusCode := some status }, ?_, ?_, ?_⟩
              · simp [requestJsonE, raceSettled, thenResponse, hj]
              · intro e he
                simp [raceSettled] at he
              · intro r pe hr hb hjr
                exact Bool.noConfusion hjr

/-- Witness for claim C1 at a concrete spec and a timed-out race. -/
theorem requestJson_never_rejects_witness :
    ∃ st : IJsonStatus, requestJsonE { url := "u" } RaceResult.timedOut = Except.ok st ∧
      (∀ err, raceSettled RaceResult.timedOut = Except.error err →
        st.networkError.isSome = true ∨ st.errorData.isSome = true) ∧
      (∀ response perr, raceSettled RaceResult.timedOut = Except.ok response →
        response.jsonBody = Except.error perr →
        optBoolTruthy (processParams { url := "u" }).jsonResponse = true →
        st.networkError.isSome = true ∨ st.errorData.isSome = true) :=
  requestJson_never_rejects { url := "u" } RaceResult.timedOut

/-- Claim C2: when the transport resolves with a response whose status code
passes validation and `jsonResponse` is truthy, the result carries the parsed
body in `data`, the response's status in `statusCode`, and leaves `errorData`
and `networkError` unset. -/
theorem requestJson_success (p : IRequestParams) (response : Response) (j : Json)
    (hjson : optBoolTruthy (processParams p).jsonResponse = true)
    (hbody : response.jsonBody = Except.ok j)
    (hvalid : isValidStatusCode response.status
      { validStatusCodes := (processParams p).validStatusCodes
        validStatusCodeStart := (processParams p).validStatusCodeStart
        validStatusCodeEnd := (processParams p).validStatusCodeEnd } = true) :
    requestJsonE p (RaceResult.fetched (Except.ok response)) =
      Except.ok { data := some (.json j), statusCode := some response.status } := by
  obtain ⟨status, jsonBody⟩ := response
  dsimp only at hbody hvalid
  subst hbody
  simp [requestJsonE, raceSettled, thenResponse, thenClassify, toPayload, hjson, hvalid,
    Except.map]

/-- Witness for claim C2: the spec's worked example — a POST of body `{a:1}`
with the 200-299 range, answered by status 201 with body `{"ok":true}`,
yields `{data: {ok:true}, statusCode: 201}`. -/
theorem requestJson_success_witness :
    requestJsonE
      { url := "https://x/y", method := some (some .POST),
        body := some (some (.obj [("a", .num 1)])),
        validStatusCodeStart := some (some 200), validStatusCodeEnd := some (some 299) }
      (RaceResult.fetched (Except.ok
        { status := 201, jsonBody := Except.ok (.obj [("ok", .bool true)]) })) =
      Except.ok { data := some (.json (.obj [("ok", .bool true)])), statusCode := some 201 } :=
  requestJson_success _ _ _ rfl rfl rfl

/-- Claim C3: with an explicit `validStatusCodes` set, a code is valid exactly
when it is a member of the set, whatever the range bounds say; with
`validStatusCodes = [201]`, 201 is valid and 200 is invalid even though 200
lies in the default 200-299 range. -/
theorem isValidStatusCode_set (statusCode : Nat) (codes : List Nat) (vStart vEnd : Option Nat) :
    (isValidStatusCode statusCode
        { validStatusCodes := some codes
          validStatusCodeStart := vStart
          validStatusCodeEnd := vEnd } = true ↔ statusCode ∈ codes) ∧
    isValidStatusCode 201
        { validStatusCodes := some [201]
          validStatusCodeStart := some 200
          validStatusCodeEnd := some 299 } = true ∧
    isValidStatusCode 200
        { validStatusCodes := some [201]
          validStatusCodeStart := some 200
          validStatusCodeEnd := some 299 } = false := by
  refine ⟨?_, by decide, by decide⟩
  simp only [isValidStatusCode, List.find?_isSome, beq_iff_eq]
  constructor
  · rintro ⟨x, hx, rfl⟩
    exact hx
  · intro hmem
    exact ⟨statusCode, hmem, rfl⟩

/-- Witness for claim C3 at a concrete code, set and range. -/
theorem isValidStatusCode_set_witness :
    (isValidStatusCode 404
        { validStatusCodes := some [404, 418]
          validStatusCodeStart := some 200
          validStatusCodeEnd := some 299 } = true ↔ 404 ∈ [404, 418]) ∧
    isValidStatusCode 201
        { validStatusCodes := some [201]
          validStatusCodeStart := some 200
          validStatusCodeEnd := some 299 } = true ∧
    isValidStatusCode 200
        { validStatusCodes := some [201]
          validStatusCodeStart := some 200
          validStatusCodeEnd := some 299 } = false :=
  isValidStatusCode_set 404 [404, 418] (some 200) (some 299)

/-- Claim C4: without an explicit set, a code is valid exactly when both range
bounds are defined and non-zero and the code lies between them; an absent or
falsy bound (the value 0 included) makes every code invalid. -/
theorem isValidStatusCode_range (statusCode : Nat) (vStart vEnd : Option Nat) :
    isValidStatusCode statusCode
        { validStatusCodes := none
          validStatusCodeStart := vStart
          validStatusCodeEnd := vEnd } = true ↔
      ∃ a b, vStart = some a ∧ vEnd = some b ∧ a ≠ 0 ∧ b ≠ 0 ∧
        a ≤ statusCode ∧ statusCode ≤ b := by
  rcases vStart with _ | a <;> rcases vEnd with _ | b <;>
    simp only [isValidStatusCode] <;> simp
  tauto

/-- Witness for claim C4 at a concrete code and range. -/
theorem isValidStatusCode_range_witness :
    isValidStatusCode 250
        { validStatusCodes := none
          validStatusCodeStart := some 200
          validStatusCodeEnd := some 299 } = true ↔
      ∃ a b, (some 200 : Option Nat) = some a ∧ (some 299 : Option Nat) = some b ∧
        a ≠ 0 ∧ b ≠ 0 ∧ a ≤ 250 ∧ 250 ≤ b :=
  isValidStatusCode_range 250 (some 200) (some 299)

/-- Claim C5: when the timeout timer fires before the transport settles, the
resolved result has `networkError = timeout` and neither `data` nor
`errorData` (nor a status code) set. -/
theorem requestJson_timeout (p : IRequestParams) :
    requestJsonE p RaceResult.timedOut =
      Except.ok { networkError := some networkError.timeout } := rfl

/-- Witness for claim C5 at a concrete spec. -/
theorem requestJson_timeout_witness :
    requestJsonE { url := "u" } RaceResult.timedOut =
      Except.ok { networkError := some networkError.timeout } :=
  requestJson_timeout { url := "u" }

/-- Counterexample to claim C6: a POST spec whose body is the defined value
`0` has a present body and an attaching method, yet no body is attached — so
attachment is not equivalent to presence of a body. -/
theorem requestBody_presence_cex :
    (processParams postZeroBodySpec).body.isSome = true ∧
    (processParams postZeroBodySpec).method = some .POST ∧
    (outgoingRequest postZeroBodySpec).body = none :=
  ⟨rfl, rfl, rfl⟩

/-- Claim C6 as amended: the body is JSON-serialized and attached exactly when
it is truthy and the method is POST, PATCH or DELETE; whatever is attached is
the serialization of the body; and for GET or PUT a provided body is never
attached. -/
theorem requestBody_attached_iff (p : IRequestParams) :
    ((outgoingRequest p).body.isSome = true ↔
      optJsonTruthy (processParams p).body = true ∧
        ((processParams p).method = some .POST ∨ (processParams p).method = some .PATCH ∨
         (processParams p).method = some .DELETE)) ∧
    (∀ b, (processParams p).body = some b →
      (outgoingRequest p).body = none ∨ (outgoingRequest p).body = some b.stringify) ∧
    (((processParams p).method = some .GET ∨ (processParams p).method = some .PUT) →
      (outgoingRequest p).body = none) := by
  unfold outgoingRequest buildRequestInit
  by_cases hc : optJsonTruthy (processParams p).body = true ∧
      ((processParams p).method = some .POST ∨ (processParams p).method = some .PATCH ∨
       (processParams p).method = some .DELETE)
  · rw [if_pos hc]
    refine ⟨by simp [hc], ?_, ?_⟩
    · intro b hb
      right
      simp [hb]
    · intro hgp
      rcases hc with ⟨_, hm⟩
      rcases hm with hm | hm | hm <;> rcases hgp with hg | hg <;> rw [hm] at hg <;>
        simp at hg
  · rw [if_neg hc]
    exact ⟨by simpa using hc, fun b _ => Or.inl rfl, fun _ => rfl⟩

/-- Witness for the amended claim C6 at a PUT spec carrying a body. -/
theorem requestBody_attached_iff_witness :
    ((outgoingRequest putOneBodySpec).body.isSome = true ↔
      optJsonTruthy (processParams putOneBodySpec).body = true ∧
        ((processParams putOneBodySpec).method = some .POST ∨
         (processParams putOneBodySpec).method = some .PATCH ∨
         (processParams putOneBodySpec).method = some .DELETE)) ∧
    (∀ b, (processParams putOneBodySpec).body = some b →
      (outgoingRequest putOneBodySpec).body = none ∨
      (outgoingRequest putOneBodySpec).body = some b.stringify) ∧
    (((processParams putOneBodySpec).method = some .GET ∨
      (processParams putOneBodySpec).method = some .PUT) →
      (outgoingRequest putOneBodySpec).body = none) :=
  requestBody_attached_iff putOneBodySpec

/-- Counterexample to claim C7: a caller object carrying
`jsonRequest: undefined` explicitly.  The object spread copies the
present-`undefined` key, so the merged value is `undefined`, not the default
`true` — observably, the Content-Type header is not added while the Accept
header (whose flag was left absent and so defaulted) is. -/
theorem merge_undefined_cex :
    ({ url := "u", jsonRequest := some none } : IRequestParams).jsonRequest = some none ∧
    (processParams { url := "u", jsonRequest := some none }).jsonRequest = none ∧
    (processParams { url := "u", jsonRequest := some none }).jsonRequest ≠
      some defaultRequestParams.jsonRequest ∧
    (outgoingRequest { url := "u", jsonRequest := some none }).headers =
      [("Accept", "application/json")] :=
  ⟨rfl, rfl, by decide, rfl⟩

/-- Claim C7 as amended: merging with the defaults is field-wise over the keys
of the caller's object — an absent field takes the default, while any present
field overrides it with the supplied value, an explicitly-`undefined` one
included (so an explicit `undefined` erases the default rather than keeping
it). -/
theorem processParams_merge (p : IRequestParams) :
    ((p.method = none → (processParams p).method = some defaultRequestParams.method) ∧
      ∀ v, p.method = some v → (processParams p).method = v) ∧
    ((p.jsonRequest = none →
        (processParams p).jsonRequest = some defaultRequestParams.jsonRequest) ∧
      ∀ v, p.jsonRequest = some v → (processParams p).jsonRequest = v) ∧
    ((p.jsonResponse = none →
        (processParams p).jsonResponse = some defaultRequestParams.jsonResponse) ∧
      ∀ v, p.jsonResponse = some v → (processParams p).jsonResponse = v) ∧
    ((p.validStatusCodeStart = none →
        (processParams p).validStatusCodeStart = some defaultRequestParams.validStatusCodeStart) ∧
      ∀ v, p.validStatusCodeStart = some v → (processParams p).validStatusCodeStart = v) ∧
    ((p.validStatusCodeEnd = none →
        (processParams p).validStatusCodeEnd = some defaultRequestParams.validStatusCodeEnd) ∧
      ∀ v, p.validStatusCodeEnd = some v → (processParams p).validStatusCodeEnd = v) := by
  refine ⟨⟨?_, ?_⟩, ⟨?_, ?_⟩, ⟨?_, ?_⟩, ⟨?_, ?_⟩, ⟨?_, ?_⟩⟩
  · intro h
    simp [processParams, spreadKey, h]
  · intro v h
    simp [processParams, spreadKey, h]
  · intro h
    simp [processParams, spreadKey, h]
  · intro v h
    simp [processParams, spreadKey, h]
  · intro h
    simp [processParams, spreadKey, h]
  · intro v h
    simp [processParams, spreadKey, h]
  · intro h
    simp [processParams, spreadKey, h]
  · intro v h
    simp [processParams, spreadKey, h]
  · intro h
    simp [processParams, spreadKey, h]
  · intro v h
    simp [processParams, spreadKey, h]

/-- Witness for the amended claim C7: an explicitly-`undefined` `method`
overrides the default `GET`. -/
theorem processParams_merge_witness :
    (processParams { url := "u", method := some none }).method = none :=
  (processParams_merge { url := "u", method := some none }).1.2 none rfl

/-- Claim C8: every result of `requestJson` populates at most one of `data`,
`errorData` and `networkError`, and carries the response's status code
whenever the race was won by a resolved transport response — including when
the subsequent JSON parse rejects or the status validation fails. -/
theorem requestJson_invariant (p : IRequestParams) (race : RaceResult) (st : IJsonStatus)
    (h : requestJsonE p race = Except.ok st) :
    populatedCount st ≤ 1 ∧
    (∀ response, race = RaceResult.fetched (Except.ok response) →
      st.statusCode = some response.status) := by
  cases race with
  | timedOut =>
      rw [show requestJsonE p RaceResult.timedOut = .ok (catchHandler (.str "timeout") {})
        from rfl] at h
      injection h with h1
      subst h1
      exact ⟨populatedCount_catchHandler _ _ rfl rfl rfl,
        fun response hr => RaceResult.noConfusion hr⟩
  | fetched outcome =>
      cases outcome with
      | error err =>
          rw [show requestJsonE p (.fetched (.error err)) = .ok (catchHandler err {})
            from rfl] at h
          injection h with h1
          subst h1
          refine ⟨populatedCount_catchHandler _ _ rfl rfl rfl, ?_⟩
          intro response hr
          injection hr with hr1
          exact Except.noConfusion hr1
      | ok response =>
          obtain ⟨status, jsonBody⟩ := response
          cases hj : optBoolTruthy (processParams p).jsonResponse with
          | true =>
              cases jsonBody with
              | error perr =>
                  simp only [requestJsonE, raceSettled, thenResponse, hj, if_true,
                    Except.map, Except.ok.injEq] at h
                  subst h
                  refine ⟨populatedCount_catchHandler _ _ rfl rfl rfl, ?_⟩
                  intro r hr
                  injection hr with hr1
                  injection hr1 with hr2
                  subst hr2
                  rw [catchHandler_statusCode]
              | ok j =>
                  simp only [requestJsonE, raceSettled, thenResponse, hj, if_true,
                    Except.map, Except.ok.injEq] at h
                  subst h
                  refine ⟨populatedCount_thenClassify _ _ _ rfl rfl rfl, ?_⟩
                  intro r hr
                  injection hr with hr1
                  injection hr1 with hr2
                  subst hr2
                  rw [thenClassify_statusCode]
          | false =>
              simp only [requestJsonE, raceSettled, thenResponse, hj, Bool.false_eq_true,
                if_false, Except.ok.injEq] at h
              subst h
              refine ⟨populatedCount_thenClassify _ _ _ rfl rfl rfl, ?_⟩
              intro r hr
              injection hr with hr1
              injection hr1 with hr2
              subst hr2
              rw [thenClassify_statusCode]

/-- Witness for claim C8 on the timed-out race of a concrete spec. -/
theorem requestJson_invariant_witness :
    populatedCount { networkError := some networkError.timeout } ≤ 1 ∧
    (∀ response, RaceResult.timedOut = RaceResult.fetched (Except.ok response) →
      IJsonStatus.statusCode { networkError := some networkError.timeout } =
        some response.status) :=
  requestJson_invariant { url := "u" } RaceResult.timedOut
    { networkError := some networkError.timeout } rfl

/-- Counterexample to claim C9: a caller object carrying `timeoutMs: 5` still
races against a 10000 ms timer — the spec's `timeoutMs` key is never read
(the code reads the key `timeout`, which only the default object supplies and
the declared parameter interface does not expose). -/
theorem timeoutMs_ignored_cex :
    ({ url := "u", timeoutMs := some (some 5) } : IRequestParams).timeoutMs = some (some 5) ∧
    timerDuration { url := "u", timeoutMs := some (some 5) } = 10000 ∧
    (10000 : Nat) ≠ 5 :=
  ⟨rfl, rfl, by decide⟩

/-- Claim C9 as amended: the timeout duration used in the race is always the
default 10000 ms, for every caller parameter object. -/
theorem timerDuration_always_default (p : IRequestParams) : timerDuration p = 10000 := rfl

/-- Witness for the amended claim C9 at a concrete spec. -/
theorem timerDuration_always_default_witness : timerDuration { url := "u" } = 10000 :=
  timerDuration_always_default { url := "u" }

/-- Claim C10: a defined but falsy body (such as `0`, the empty string or
`false`) is never serialized or attached, even for POST, PATCH or DELETE: the
attachment condition is truthiness of the body, not mere presence. -/
theorem falsy_body_not_attached (p : IRequestParams) (b : Json)
    (_hm : (processParams p).method = some .POST ∨ (processParams p).method = some .PATCH ∨
      (processParams p).method = some .DELETE)
    (hb : (processParams p).body = some b) (ht : b.truthy = false) :
    (outgoingRequest p).body = none := by
  unfold outgoingRequest buildRequestInit
  rw [if_neg]
  rintro ⟨htruthy, _⟩
  rw [hb] at htruthy
  simp [optJsonTruthy, ht] at htruthy

/-- Witness for claim C10: a POST whose body is `0` attaches nothing. -/
theorem falsy_body_not_attached_witness :
    (outgoingRequest postZeroBodySpec).body = none :=
  falsy_body_not_attached postZeroBodySpec (.num 0) (Or.inl rfl) rfl rfl

end Tfetch
